import Mathlib

/-!
Shallow embedding of two components of the kr1stj0n/ns-3 repository:

* the ShQ active-queue-management discipline
  (`src/traffic-control/model/shq-queue-disc.{h,cc}`), and
* the Lgc/DCTCP-style sender-side congestion estimator
  (`src/internet/model/tcp-lgc.cc`).

Conventions of the embedding:

* C++ `double` arithmetic is modelled over `ℚ` (every constant appearing in
  the claims is a dyadic rational, so the arithmetic identities are exact);
* the `uint32_t` counter `m_countBytes` of the queue disc is modelled as a
  natural number reduced `% 2^32` at every increment, matching unsigned
  wrap-around;
* times (`ns3::Time`) are modelled as rational numbers of seconds;
* the internal drop-tail queue is a `List` of packets (FIFO: enqueue at the
  tail, dequeue at the head); the queue disc is configured in packet mode
  (`MaxSize` attribute default `"100p"`), so occupancy is the list length
  and the `nQueued + item` of `DoEnqueue` adds one packet;
* the uniform random draw of `UniformRandomVariable::GetValue` and the
  current simulation time of `Simulator::Now` are passed in as explicit
  arguments, and the self-rescheduling of `CalculateProb` via
  `Simulator::Schedule (m_tInterval, ...)` is returned as the second
  component of its result (the delay after which it re-fires).
-/

/-- A packet handed to the queue disc (`Ptr<QueueDiscItem>`): its byte
length (`GetSize`), its enqueue timestamp in seconds (`GetTimeStamp`),
whether its IP header is ECN-capable so that `QueueDisc::Mark` succeeds on
it, and whether the congestion-experienced codepoint has been set. -/
structure Packet where
  size : Nat
  timestamp : ℚ
  ecnCapable : Bool
  marked : Bool
deriving Repr, DecidableEq

/-- Configuration attributes of `ShqQueueDisc` (immutable after setup):
`MeanPktSize`, `Alpha`, `Tinterval` (seconds), `MaxP`, `LinkBandwidth`
(bits per second, `DataRate::GetBitRate`), `UseEcn`, and `MaxSize`
(packets). -/
structure ShqConfig where
  meanPktSize : Nat
  alpha : ℚ
  tInterval : ℚ
  maxP : ℚ
  linkBitRate : Nat
  useEcn : Bool
  maxSize : Nat
deriving Repr, DecidableEq

/-- Mutable state of `ShqQueueDisc`: the backing drop-tail queue together
with `m_countBytes`, `m_qAvg`, `m_markProb` and `m_qDelay`. -/
structure ShqState where
  queue : List Packet
  countBytes : Nat
  qAvg : ℚ
  markProb : ℚ
  qDelay : ℚ
deriving Repr, DecidableEq

/-- Derived constant `m_maxBytes` of `ShqQueueDisc::InitializeParams`:
`(m_linkBandwidth.GetBitRate () / 8.0) * m_tInterval.GetSeconds ()`,
truncated by the assignment to the `uint32_t` member (conversion of a
non-negative `double` to an unsigned integer truncates toward zero;
out-of-range conversions are undefined behaviour in C++ and are not
modelled). -/
def maxBytesOf (cfg : ShqConfig) : Nat :=
  Int.toNat ⌊(cfg.linkBitRate : ℚ) / 8 * cfg.tInterval⌋

/-- State established by `ShqQueueDisc::InitializeParams` on a freshly
created disc (the internal queue is empty; `m_qDelay` is a
default-constructed zero `Time`): `m_countBytes = 0`, `m_qAvg = 0`,
`m_markProb = 0`. -/
def ShqQueueDisc.initState : ShqState :=
  { queue := [], countBytes := 0, qAvg := 0, markProb := 0, qDelay := 0 }

/-- Drop / mark outcome reported by `ShqQueueDisc::DoEnqueue` through
`DropBeforeEnqueue` / `Mark` (`FORCED_DROP`, `UNFORCED_DROP`,
`UNFORCED_MARK`) or plain acceptance. -/
inductive EnqueueOutcome where
  | forcedDrop
  | unforcedDrop
  | unforcedMark
  | accepted
deriving Repr, DecidableEq

/-- `ShqQueueDisc::ShouldMark`: draw `u` and compare with `m_markProb`
(the draw is the explicit argument `u`). -/
def ShqQueueDisc.ShouldMark (s : ShqState) (u : ℚ) : Bool :=
  u < s.markProb

/-- `ShqQueueDisc::DoEnqueue`: reject with `FORCED_DROP` when the occupancy
with the new packet would exceed `MaxSize`; otherwise add the packet's size
to `m_countBytes` (unsigned 32-bit), then, when `ShouldMark` fires, either
mark and accept (ECN enabled and packet markable) or reject with
`UNFORCED_DROP`; otherwise accept. -/
def ShqQueueDisc.DoEnqueue (cfg : ShqConfig) (s : ShqState) (item : Packet)
    (u : ℚ) : ShqState × EnqueueOutcome :=
  if cfg.maxSize < s.queue.length + 1 then
    (s, .forcedDrop)
  else
    let s' := { s with countBytes := (s.countBytes + item.size) % 2 ^ 32 }
    if ShqQueueDisc.ShouldMark s u then
      if !cfg.useEcn || !item.ecnCapable then
        (s', .unforcedDrop)
      else
        ({ s' with queue := s'.queue ++ [{ item with marked := true }] },
          .unforcedMark)
    else
      ({ s' with queue := s'.queue ++ [item] }, .accepted)

/-- `ShqQueueDisc::DoDequeue` at current time `now`: return nothing on an
empty queue, otherwise pop the head, set `m_qDelay` to the sojourn time,
and force `m_qDelay` to zero when the remaining bytes are zero. -/
def ShqQueueDisc.DoDequeue (now : ℚ) (s : ShqState) :
    Option Packet × ShqState :=
  match s.queue with
  | [] => (none, s)
  | item :: rest =>
    let d : ℚ := now - item.timestamp
    let d' : ℚ := if (rest.map Packet.size).sum = 0 then 0 else d
    (some item, { s with queue := rest, qDelay := d' })

/-- `ShqQueueDisc::CalculateProb`: fold the current backlog into
`m_countBytes` (unsigned 32-bit), advance the EWMA `m_qAvg`, recompute
`m_markProb = m_maxP * m_qAvg / m_maxBytes`, reset `m_countBytes`, and
reschedule after `m_tInterval` (the returned delay). -/
def ShqQueueDisc.CalculateProb (cfg : ShqConfig) (s : ShqState) :
    ShqState × ℚ :=
  let nQueued := s.queue.length
  let cb : Nat := (s.countBytes + nQueued * cfg.meanPktSize) % 2 ^ 32
  let qAvg := s.qAvg * (1 - cfg.alpha) + (cb : ℚ) * cfg.alpha
  let p := cfg.maxP * qAvg / (maxBytesOf cfg : ℚ)
  ({ s with qAvg := qAvg, markProb := p, countBytes := 0 }, cfg.tInterval)

/-- An event delivered to the queue disc by the simulator: a packet arrival
(with the uniform draw the admission will consume), a dequeue at a given
time, or an expiry of the `CalculateProb` timer. -/
inductive ShqOp where
  | enqueue (item : Packet) (u : ℚ)
  | dequeue (now : ℚ)
  | calcProb
deriving Repr

/-- State transition of the queue disc under one simulator event. -/
def ShqQueueDisc.step (cfg : ShqConfig) (s : ShqState) : ShqOp → ShqState
  | .enqueue item u => (ShqQueueDisc.DoEnqueue cfg s item u).1
  | .dequeue now => (ShqQueueDisc.DoDequeue now s).2
  | .calcProb => (ShqQueueDisc.CalculateProb cfg s).1

/-- The slice of `TcpSocketState` read by `tcp-lgc.cc`: `m_segmentSize`,
whether `m_ecnState == ECN_ECE_RCVD`, `m_lastAckedSeq`, `m_nextTxSequence`
and `m_cWnd` (sequence numbers as naturals). The three fields written by
`Init` (`m_useEcn = On`, `m_ecnMode = DctcpEcn`, `m_ectCodePoint`) are
carried so that `Init` can be modelled faithfully. -/
structure Tcb where
  segmentSize : Nat
  ecnEceRcvd : Bool
  lastAckedSeq : Nat
  nextTxSequence : Nat
  cWnd : Nat
  useEcnOn : Bool
  dctcpEcnMode : Bool
  ect0 : Bool
deriving Repr, DecidableEq

/-- Mutable state of `TcpLgc`: the per-window byte counters, the EWMA
`m_alpha`, the gain `m_g`, the window boundary `m_nextSeq` with its
initialisation flag `m_nextSeqFlag`, and `m_initialized` (set only by
`Init`). -/
structure LgcState where
  ackedBytesEcn : Nat
  ackedBytesTotal : Nat
  alpha : ℚ
  g : ℚ
  nextSeq : Nat
  nextSeqFlag : Bool
  initialized : Bool
deriving Repr, DecidableEq

/-- State built by the default constructor `TcpLgc::TcpLgc`: both byte
counters zero, `m_nextSeq` zero, both flags false. `m_alpha` and `m_g` are
left uninitialised by the constructor, so they are parameters here. -/
def TcpLgc.construct (alpha g : ℚ) : LgcState :=
  { ackedBytesEcn := 0, ackedBytesTotal := 0, alpha := alpha, g := g,
    nextSeq := 0, nextSeqFlag := false, initialized := false }

/-- `TcpLgc::Init` (`m_useEct0` passed explicitly): enables ECN on the
socket state, selects the codepoint, and sets `m_initialized`. -/
def TcpLgc.Init (useEct0 : Bool) (s : LgcState) (tcb : Tcb) :
    LgcState × Tcb :=
  ({ s with initialized := true },
   { tcb with useEcnOn := true, dctcpEcnMode := true, ect0 := useEct0 })

/-- `TcpLgc::GetSsThresh`: `static_cast<uint32_t> ((1 - m_alpha / 2.0) *
tcb->m_cWnd)`; `bytesInFlight` is ignored. The cast truncates the
non-negative `double` toward zero. -/
def TcpLgc.GetSsThresh (alpha : ℚ) (tcb : Tcb) (bytesInFlight : Nat) :
    Nat :=
  Int.toNat ⌊(1 - alpha / 2) * (tcb.cWnd : ℚ)⌋

/-- `TcpLgc::Reset`: advance `m_nextSeq` to `tcb->m_nextTxSequence` and
zero both byte counters. -/
def TcpLgc.Reset (tcb : Tcb) (s : LgcState) : LgcState :=
  { s with nextSeq := tcb.nextTxSequence,
           ackedBytesEcn := 0,
           ackedBytesTotal := 0 }

/-- `TcpLgc::PktsAcked` (the `rtt` argument is only logged and is
omitted): accumulate acked bytes into `m_ackedBytesTotal` and, when
ECN-Echo was received, into `m_ackedBytesEcn`; anchor `m_nextSeq` on first
use; when the window has closed (`m_lastAckedSeq >= m_nextSeq`), fold the
marked fraction into `m_alpha` with gain `m_g` and reset the window. -/
def TcpLgc.PktsAcked (s : LgcState) (tcb : Tcb) (segmentsAcked : Nat) :
    LgcState :=
  let s1 := { s with
    ackedBytesTotal := s.ackedBytesTotal + segmentsAcked * tcb.segmentSize }
  let s2 := if tcb.ecnEceRcvd then
      { s1 with
        ackedBytesEcn := s1.ackedBytesEcn + segmentsAcked * tcb.segmentSize }
    else s1
  let s3 := if s2.nextSeqFlag = false then
      { s2 with nextSeq := tcb.nextTxSequence, nextSeqFlag := true }
    else s2
  if s3.nextSeq ≤ tcb.lastAckedSeq then
    let bytesEcn : ℚ := if 0 < s3.ackedBytesTotal then
        (s3.ackedBytesEcn : ℚ) / (s3.ackedBytesTotal : ℚ)
      else 0
    let s4 := { s3 with alpha := (1 - s3.g) * s3.alpha + s3.g * bytesEcn }
    TcpLgc.Reset tcb s4
  else s3

/-- `TcpLgc::InitializeDctcpAlpha`: aborts (`NS_ABORT_MSG_IF`, modelled as
`none`) when `m_initialized` is already set, otherwise stores the seed in
`m_alpha`. Note that it does not itself set `m_initialized`. -/
def TcpLgc.InitializeDctcpAlpha (s : LgcState) (alpha : ℚ) :
    Option LgcState :=
  if s.initialized then none else some { s with alpha := alpha }

/-! ## Claim theorems -/

/-- C1: each invocation of the periodic recomputation step
(`ShqQueueDisc::CalculateProb`) first adds `backlog * meanPktSize` to
`m_countBytes`, then sets `m_qAvg` to `m_qAvg * (1 - alpha) + countBytes *
alpha` (unnormalized second term, exactly as written), then sets
`m_markProb` to `maxP * qAvg / maxBytes` with no clamp, then resets
`m_countBytes` to zero, and reschedules itself after `m_tInterval`.
Stated for any prior state whose folded counter does not wrap the unsigned
32-bit range of `m_countBytes`. -/
theorem CalculateProb_step_spec (cfg : ShqConfig) (s : ShqState)
    (h : s.countBytes + s.queue.length * cfg.meanPktSize < 2 ^ 32) :
    ShqQueueDisc.CalculateProb cfg s =
      ({ s with
          qAvg := s.qAvg * (1 - cfg.alpha)
            + ((s.countBytes + s.queue.length * cfg.meanPktSize : Nat) : ℚ)
              * cfg.alpha
          markProb := cfg.maxP
            * (s.qAvg * (1 - cfg.alpha)
               + ((s.countBytes + s.queue.length * cfg.meanPktSize : Nat) : ℚ)
                 * cfg.alpha)
            / (maxBytesOf cfg : ℚ)
          countBytes := 0 }, cfg.tInterval) := by
  simp only [ShqQueueDisc.CalculateProb]
  rw [Nat.mod_eq_of_lt h]

/-- Witness for C1: one resident packet, `meanPktSize = 100`,
`countBytes = 50`, `alpha = 1/4`, `maxP = 9/10`, `maxBytes = 100`. -/
theorem CalculateProb_step_spec_witness :
    (50 + 1 * 100 < 2 ^ 32) ∧
    ShqQueueDisc.CalculateProb ⟨100, 1/4, 1, 9/10, 800, true, 100⟩
        ⟨[⟨100, 0, true, false⟩], 50, 0, 0, 0⟩ =
      (⟨[⟨100, 0, true, false⟩], 0, 75/2, 27/80, 0⟩, 1) := by
  have hmb : maxBytesOf ⟨100, 1/4, 1, 9/10, 800, true, 100⟩ = 100 := by
    unfold maxBytesOf
    norm_num
    rfl
  refine ⟨by norm_num, ?_⟩
  rw [CalculateProb_step_spec ⟨100, 1/4, 1, 9/10, 800, true, 100⟩
      ⟨[⟨100, 0, true, false⟩], 50, 0, 0, 0⟩ (by norm_num), hmb]
  norm_num [Prod.ext_iff, ShqState.mk.injEq]

/-- C2: for a packet that passes the capacity check of `DoEnqueue`, its
byte length is added to `m_countBytes` on every path (also on the
probabilistic rejection path); when the draw `u` is below `m_markProb` the
packet is either marked and accepted (`UNFORCED_MARK`, ECN on and packet
markable) or rejected (`UNFORCED_DROP`); when `u` is at or above
`m_markProb` it is accepted unchanged. -/
theorem DoEnqueue_admitted_spec (cfg : ShqConfig) (s : ShqState)
    (item : Packet) (u : ℚ)
    (hcap : ¬ cfg.maxSize < s.queue.length + 1) :
    ((ShqQueueDisc.DoEnqueue cfg s item u).1.countBytes
        = (s.countBytes + item.size) % 2 ^ 32) ∧
    (u < s.markProb → cfg.useEcn = true → item.ecnCapable = true →
        ShqQueueDisc.DoEnqueue cfg s item u =
          ({ s with
              countBytes := (s.countBytes + item.size) % 2 ^ 32
              queue := s.queue ++ [{ item with marked := true }] },
            .unforcedMark)) ∧
    (u < s.markProb → (cfg.useEcn = false ∨ item.ecnCapable = false) →
        ShqQueueDisc.DoEnqueue cfg s item u =
          ({ s with countBytes := (s.countBytes + item.size) % 2 ^ 32 },
            .unforcedDrop)) ∧
    (s.markProb ≤ u →
        ShqQueueDisc.DoEnqueue cfg s item u =
          ({ s with
              countBytes := (s.countBytes + item.size) % 2 ^ 32
              queue := s.queue ++ [item] },
            .accepted)) := by
  refine ⟨?_, ?_, ?_, ?_⟩
  · unfold ShqQueueDisc.DoEnqueue
    rw [if_neg hcap]
    dsimp only
    split
    · split <;> rfl
    · rfl
  · intro hu hecn hcapable
    simp [ShqQueueDisc.DoEnqueue, ShqQueueDisc.ShouldMark, hcap, hu, hecn,
      hcapable]
  · intro hu hfail
    rcases hfail with hfail | hfail <;>
      simp [ShqQueueDisc.DoEnqueue, ShqQueueDisc.ShouldMark, hcap, hu, hfail]
  · intro hu
    simp [ShqQueueDisc.DoEnqueue, ShqQueueDisc.ShouldMark, hcap,
      not_lt.mpr hu]

/-- Witness for C2: an empty, uncongested queue admits a 100-byte packet
and `m_countBytes` advances from 7 to 107. -/
theorem DoEnqueue_admitted_spec_witness :
    (ShqQueueDisc.DoEnqueue ⟨100, 1/4, 1, 9/10, 800, true, 100⟩
        ⟨[], 7, 0, 1/2, 0⟩ ⟨100, 0, true, false⟩ (3/4)).1.countBytes
      = (7 + 100) % 2 ^ 32 :=
  (DoEnqueue_admitted_spec ⟨100, 1/4, 1, 9/10, 800, true, 100⟩
    ⟨[], 7, 0, 1/2, 0⟩ ⟨100, 0, true, false⟩ (3/4) (by simp)).1

/-- Helper for C3: every simulator event preserves the occupancy bound of
the backing queue. -/
theorem step_length_le (cfg : ShqConfig) (s : ShqState) (op : ShqOp)
    (h : s.queue.length ≤ cfg.maxSize) :
    (ShqQueueDisc.step cfg s op).queue.length ≤ cfg.maxSize := by
  cases op with
  | enqueue item u =>
    simp only [ShqQueueDisc.step]
    unfold ShqQueueDisc.DoEnqueue
    split
    · exact h
    · next hcap =>
      push_neg at hcap
      dsimp only
      split
      · split
        · exact h
        · simpa using hcap
      · simpa using hcap
  | dequeue now =>
    simp only [ShqQueueDisc.step]
    cases hq : s.queue with
    | nil => simp [ShqQueueDisc.DoDequeue, hq]
    | cons a t =>
      have h' : t.length + 1 ≤ cfg.maxSize := by
        rw [hq] at h
        simpa using h
      simp only [ShqQueueDisc.DoDequeue, hq]
      simpa using Nat.le_of_succ_le h'
  | calcProb =>
    exact h

/-- C3: starting from the freshly initialized disc, no sequence of
enqueue / dequeue / recomputation events ever pushes the backing queue's
occupancy above `MaxSize`; and an arrival that would exceed `MaxSize` is
rejected as `FORCED_DROP` with the whole state (queue and `m_countBytes`
included) unchanged, before any marking or accounting runs. -/
theorem capacity_invariant (cfg : ShqConfig) :
    (∀ ops : List ShqOp,
        (ops.foldl (ShqQueueDisc.step cfg)
          ShqQueueDisc.initState).queue.length ≤ cfg.maxSize) ∧
    (∀ (s : ShqState) (item : Packet) (u : ℚ),
        cfg.maxSize < s.queue.length + 1 →
        ShqQueueDisc.DoEnqueue cfg s item u = (s, .forcedDrop)) := by
  constructor
  · have main : ∀ (l : List ShqOp) (s : ShqState),
        s.queue.length ≤ cfg.maxSize →
        (l.foldl (ShqQueueDisc.step cfg) s).queue.length ≤ cfg.maxSize := by
      intro l
      induction l with
      | nil => exact fun s h => h
      | cons op t ih => exact fun s h => ih _ (step_length_le cfg s op h)
    exact fun ops =>
      main ops ShqQueueDisc.initState (by simp [ShqQueueDisc.initState])
  · intro s item u h
    unfold ShqQueueDisc.DoEnqueue
    rw [if_pos h]

/-- Witness for C3: a full one-packet queue rejects the next arrival with
`FORCED_DROP` and is left unchanged. -/
theorem capacity_invariant_witness :
    ShqQueueDisc.DoEnqueue ⟨100, 1/4, 1, 9/10, 800, true, 1⟩
        ⟨[⟨100, 0, true, false⟩], 0, 0, 0, 0⟩ ⟨200, 2, true, false⟩ (1/2) =
      (⟨[⟨100, 0, true, false⟩], 0, 0, 0, 0⟩, .forcedDrop) :=
  (capacity_invariant ⟨100, 1/4, 1, 9/10, 800, true, 1⟩).2
    ⟨[⟨100, 0, true, false⟩], 0, 0, 0, 0⟩ ⟨200, 2, true, false⟩ (1/2)
    (by simp)

/-- C4: when `PktsAcked` runs with the window anchor already set and
`m_lastAckedSeq >= m_nextSeq`, the new `m_alpha` is
`(1 - g) * alpha + g * fraction` with `fraction` the post-increment
`ackedBytesEcn / ackedBytesTotal` (zero when the total is zero), and
afterwards both byte counters are zero and `m_nextSeq` equals the
connection's `m_nextTxSequence`. -/
theorem PktsAcked_windowClose (s : LgcState) (tcb : Tcb) (k : Nat)
    (hflag : s.nextSeqFlag = true)
    (hclose : s.nextSeq ≤ tcb.lastAckedSeq) :
    ((TcpLgc.PktsAcked s tcb k).alpha =
        (1 - s.g) * s.alpha + s.g *
          (if 0 < s.ackedBytesTotal + k * tcb.segmentSize then
             (((if tcb.ecnEceRcvd then
                   s.ackedBytesEcn + k * tcb.segmentSize
                 else s.ackedBytesEcn) : Nat) : ℚ)
               / ((s.ackedBytesTotal + k * tcb.segmentSize : Nat) : ℚ)
           else 0)) ∧
    (TcpLgc.PktsAcked s tcb k).ackedBytesEcn = 0 ∧
    (TcpLgc.PktsAcked s tcb k).ackedBytesTotal = 0 ∧
    (TcpLgc.PktsAcked s tcb k).nextSeq = tcb.nextTxSequence := by
  unfold TcpLgc.PktsAcked TcpLgc.Reset
  cases hece : tcb.ecnEceRcvd <;> simp [hflag, hclose, hece]

/-- Witness for C4, the arithmetic instance of the claim:
`ackedBytesEcn = 50`, `ackedBytesTotal = 200`, prior `alpha = 1/2`,
gain `1/16`: the new `alpha` is `31/64 = 0.484375`, the counters reset,
and `m_nextSeq` advances to the send pointer 42. -/
theorem PktsAcked_windowClose_witness :
    (TcpLgc.PktsAcked ⟨50, 200, 1/2, 1/16, 3, true, false⟩
        ⟨1000, false, 5, 42, 0, false, false, false⟩ 0).alpha = 31/64 ∧
    (TcpLgc.PktsAcked ⟨50, 200, 1/2, 1/16, 3, true, false⟩
        ⟨1000, false, 5, 42, 0, false, false, false⟩ 0).ackedBytesEcn = 0 ∧
    (TcpLgc.PktsAcked ⟨50, 200, 1/2, 1/16, 3, true, false⟩
        ⟨1000, false, 5, 42, 0, false, false, false⟩ 0).ackedBytesTotal = 0 ∧
    (TcpLgc.PktsAcked ⟨50, 200, 1/2, 1/16, 3, true, false⟩
        ⟨1000, false, 5, 42, 0, false, false, false⟩ 0).nextSeq = 42 := by
  have h := PktsAcked_windowClose ⟨50, 200, 1/2, 1/16, 3, true, false⟩
    ⟨1000, false, 5, 42, 0, false, false, false⟩ 0 rfl (by norm_num)
  refine ⟨?_, h.2.1, h.2.2.1, h.2.2.2⟩
  rw [h.1]
  norm_num

/-- C5, counterexample: `GetSsThresh` does not return
`cWnd * (1 - alpha / 2)` exactly: the `static_cast<uint32_t>` truncates.
With `alpha = 1/2` and `cWnd = 2` the product is `3/2` but the function
returns `1`. -/
theorem GetSsThresh_exact_counterexample :
    ¬ ((TcpLgc.GetSsThresh (1/2) ⟨1000, false, 0, 0, 2, false, false, false⟩
          0 : ℚ)
        = (1 - (1/2) / 2) * (((2 : Nat) : ℚ))) := by
  have hv : TcpLgc.GetSsThresh (1/2)
      ⟨1000, false, 0, 0, 2, false, false, false⟩ 0 = 1 := by
    unfold TcpLgc.GetSsThresh
    norm_num
  rw [hv]
  norm_num

/-- C5 as amended: `GetSsThresh` returns `cWnd * (1 - alpha / 2)`
truncated to an integer — at most the real product and within one of it —
and, being a plain function of `m_alpha` and the socket's window, mutates
no estimator or connection state. Stated for `alpha <= 2`, where the cast
operand is non-negative (a negative operand would be undefined behaviour
in the C++). -/
theorem GetSsThresh_truncated (alpha : ℚ) (tcb : Tcb) (inflight : Nat)
    (h2 : alpha ≤ 2) :
    ((TcpLgc.GetSsThresh alpha tcb inflight : ℚ)
        ≤ (1 - alpha / 2) * (tcb.cWnd : ℚ)) ∧
    ((1 - alpha / 2) * (tcb.cWnd : ℚ) - 1
        < (TcpLgc.GetSsThresh alpha tcb inflight : ℚ)) := by
  unfold TcpLgc.GetSsThresh
  have hx : (0 : ℚ) ≤ (1 - alpha / 2) * (tcb.cWnd : ℚ) := by
    have h1 : (0 : ℚ) ≤ 1 - alpha / 2 := by linarith
    exact mul_nonneg h1 (Nat.cast_nonneg _)
  have hfl : (0 : ℤ) ≤ ⌊(1 - alpha / 2) * (tcb.cWnd : ℚ)⌋ :=
    Int.floor_nonneg.mpr hx
  have hcast : ((Int.toNat ⌊(1 - alpha / 2) * (tcb.cWnd : ℚ)⌋ : Nat) : ℚ)
      = ((⌊(1 - alpha / 2) * (tcb.cWnd : ℚ)⌋ : ℤ) : ℚ) := by
    exact_mod_cast congrArg Int.cast (Int.toNat_of_nonneg hfl)
  rw [hcast]
  exact ⟨Int.floor_le _, Int.sub_one_lt_floor _⟩

/-- Witness for the amended C5 at `alpha = 1/2`, `cWnd = 2`. -/
theorem GetSsThresh_truncated_witness :
    ((TcpLgc.GetSsThresh (1/2) ⟨1000, false, 0, 0, 2, false, false, false⟩
          0 : ℚ)
        ≤ (1 - (1/2) / 2) * (((⟨1000, false, 0, 0, 2, false, false, false⟩
            : Tcb).cWnd : ℚ))) ∧
    ((1 - (1/2) / 2) * (((⟨1000, false, 0, 0, 2, false, false, false⟩
            : Tcb).cWnd : ℚ)) - 1
        < (TcpLgc.GetSsThresh (1/2) ⟨1000, false, 0, 0, 2, false, false, false⟩
            0 : ℚ)) :=
  GetSsThresh_truncated (1/2) ⟨1000, false, 0, 0, 2, false, false, false⟩ 0
    (by norm_num)

/-- C6: `DoDequeue` returns nothing and leaves the state untouched on an
empty queue; otherwise it pops the head packet, sets `m_qDelay` to the
sojourn time `now - timestamp`, and forces `m_qDelay` to exactly zero
whenever the queue's remaining bytes are zero after the removal. -/
theorem DoDequeue_spec :
    (∀ (now : ℚ) (s : ShqState), s.queue = [] →
        ShqQueueDisc.DoDequeue now s = (none, s)) ∧
    (∀ (now : ℚ) (s : ShqState) (item : Packet) (rest : List Packet),
        s.queue = item :: rest →
        ShqQueueDisc.DoDequeue now s =
          (some item,
           { s with
              queue := rest
              qDelay := if (rest.map Packet.size).sum = 0 then 0
                        else now - item.timestamp })) := by
  constructor
  · intro now s h
    simp [ShqQueueDisc.DoDequeue, h]
  · intro now s item rest h
    simp [ShqQueueDisc.DoDequeue, h]

/-- Witness for C6: the empty queue returns no packet unchanged, and
draining the last packet reports a delay of zero although its actual
sojourn time was 4 seconds. -/
theorem DoDequeue_spec_witness :
    ShqQueueDisc.DoDequeue 5 ⟨[], 0, 0, 0, 3⟩ = (none, ⟨[], 0, 0, 0, 3⟩) ∧
    ShqQueueDisc.DoDequeue 5 ⟨[⟨100, 1, false, false⟩], 7, 0, 0, 3⟩ =
      (some ⟨100, 1, false, false⟩, ⟨[], 7, 0, 0, 0⟩) :=
  ⟨DoDequeue_spec.1 5 ⟨[], 0, 0, 0, 3⟩ rfl, by
    rw [DoDequeue_spec.2 5 ⟨[⟨100, 1, false, false⟩], 7, 0, 0, 3⟩
      ⟨100, 1, false, false⟩ [] rfl]
    norm_num⟩

/-- C7, counterexample: a second call of the alpha-seed operation
`InitializeDctcpAlpha` is NOT rejected on every instance: on a fresh
instance that was never passed through `Init`, the first seed leaves
`m_initialized` false, so the second seed also succeeds (the abort models
as `none`; here the result is `some`). -/
theorem InitializeDctcpAlpha_twice_counterexample :
    (TcpLgc.InitializeDctcpAlpha
        ((TcpLgc.InitializeDctcpAlpha (TcpLgc.construct 0 0) (1/2)).getD
          (TcpLgc.construct 0 0))
        (3/4)).isSome = true := rfl

/-- C7 as amended: `InitializeDctcpAlpha` is rejected as a fatal contract
violation exactly when the instance's `m_initialized` flag is set, and
`Init` (connection establishment) sets that flag — so any seed after
`Init`, in particular a second one, aborts; the seed operation itself does
not set the flag, so repeated seeding before `Init` silently
overwrites. -/
theorem InitializeDctcpAlpha_guard :
    (∀ (s : LgcState) (a : ℚ),
        TcpLgc.InitializeDctcpAlpha s a = none ↔ s.initialized = true) ∧
    (∀ (useEct0 : Bool) (s : LgcState) (tcb : Tcb) (a : ℚ),
        TcpLgc.InitializeDctcpAlpha (TcpLgc.Init useEct0 s tcb).1 a
          = none) := by
  constructor
  · intro s a
    unfold TcpLgc.InitializeDctcpAlpha
    constructor
    · intro h
      by_contra hni
      simp [hni] at h
    · intro h
      simp [h]
  · intro useEct0 s tcb a
    simp [TcpLgc.InitializeDctcpAlpha, TcpLgc.Init]

/-- Witness for the amended C7: an instance with `m_initialized` set
rejects the seed. -/
theorem InitializeDctcpAlpha_guard_witness :
    TcpLgc.InitializeDctcpAlpha ⟨0, 0, 0, 0, 0, false, true⟩ 1 = none :=
  (InitializeDctcpAlpha_guard.1 ⟨0, 0, 0, 0, 0, false, true⟩ 1).mpr rfl

/-- C8: `m_markProb` and `m_qAvg` are untouched by the per-packet
admission path (`DoEnqueue`) and by `DoDequeue`, for every starting state
and every input; only `CalculateProb` mutates them. -/
theorem markProb_qAvg_frame (cfg : ShqConfig) (s : ShqState) (item : Packet)
    (u now : ℚ) :
    (ShqQueueDisc.DoEnqueue cfg s item u).1.markProb = s.markProb ∧
    (ShqQueueDisc.DoEnqueue cfg s item u).1.qAvg = s.qAvg ∧
    (ShqQueueDisc.DoDequeue now s).2.markProb = s.markProb ∧
    (ShqQueueDisc.DoDequeue now s).2.qAvg = s.qAvg := by
  refine ⟨?_, ?_, ?_, ?_⟩
  · unfold ShqQueueDisc.DoEnqueue
    split
    · rfl
    · dsimp only
      split
      · split <;> rfl
      · rfl
  · unfold ShqQueueDisc.DoEnqueue
    split
    · rfl
    · dsimp only
      split
      · split <;> rfl
      · rfl
  · unfold ShqQueueDisc.DoDequeue
    cases s.queue <;> rfl
  · unfold ShqQueueDisc.DoDequeue
    cases s.queue <;> rfl

/-- Helper for C9: one `PktsAcked` call preserves
`ackedBytesEcn <= ackedBytesTotal` (each increment adds the same quantity
to both counters or only to the total; a window close zeroes both). -/
theorem pktsAcked_preserves_le (s : LgcState) (tcb : Tcb) (k : Nat)
    (h : s.ackedBytesEcn ≤ s.ackedBytesTotal) :
    (TcpLgc.PktsAcked s tcb k).ackedBytesEcn ≤
      (TcpLgc.PktsAcked s tcb k).ackedBytesTotal := by
  unfold TcpLgc.PktsAcked TcpLgc.Reset
  dsimp only
  split <;> split <;> split <;> simp <;> omega

/-- C9: in every state reachable from the freshly constructed estimator
(both counters zero) by any sequence of `PktsAcked` invocations,
`ackedBytesEcn <= ackedBytesTotal`. -/
theorem ackedBytesEcn_le_total (alpha g : ℚ) (evs : List (Tcb × Nat)) :
    (evs.foldl (fun s e => TcpLgc.PktsAcked s e.1 e.2)
        (TcpLgc.construct alpha g)).ackedBytesEcn ≤
      (evs.foldl (fun s e => TcpLgc.PktsAcked s e.1 e.2)
        (TcpLgc.construct alpha g)).ackedBytesTotal := by
  have main : ∀ (l : List (Tcb × Nat)) (s : LgcState),
      s.ackedBytesEcn ≤ s.ackedBytesTotal →
      (l.foldl (fun s e => TcpLgc.PktsAcked s e.1 e.2) s).ackedBytesEcn ≤
        (l.foldl (fun s e => TcpLgc.PktsAcked s e.1 e.2) s).ackedBytesTotal := by
    intro l
    induction l with
    | nil => exact fun s h => h
    | cons e t ih => exact fun s h => ih _ (pktsAcked_preserves_le s e.1 e.2 h)
  exact main evs (TcpLgc.construct alpha g) (by simp [TcpLgc.construct])

/-- C10: `m_maxBytes` is the truncation of
`linkBandwidth / 8 * interval`; it is positive exactly when that product
amounts to at least one byte, it is zero whenever the interval is zero,
and the division computing `m_markProb` in `CalculateProb` is unguarded —
its divisor is exactly `m_maxBytes`, so a zero `m_maxBytes` makes the
step divide by zero. -/
theorem maxBytes_division_guard :
    (∀ cfg : ShqConfig,
        0 < maxBytesOf cfg ↔ 1 ≤ (cfg.linkBitRate : ℚ) / 8 * cfg.tInterval) ∧
    (∀ cfg : ShqConfig, cfg.tInterval = 0 → maxBytesOf cfg = 0) ∧
    (∀ (cfg : ShqConfig) (s : ShqState),
        ((ShqQueueDisc.CalculateProb cfg s).1).markProb =
          cfg.maxP * ((ShqQueueDisc.CalculateProb cfg s).1).qAvg
            / (maxBytesOf cfg : ℚ)) := by
  refine ⟨?_, ?_, ?_⟩
  · intro cfg
    unfold maxBytesOf
    rw [Int.lt_toNat]
    norm_num [Int.lt_iff_add_one_le, Int.le_floor]
  · intro cfg h
    simp [maxBytesOf, h]
  · intro cfg s
    rfl

/-- Witness for C10: a 100 Mbps link with a zero recomputation interval
yields `m_maxBytes = 0`. -/
theorem maxBytes_division_guard_witness :
    maxBytesOf ⟨100, 1/4, 0, 9/10, 100000000, true, 100⟩ = 0 :=
  maxBytes_division_guard.2.1 ⟨100, 1/4, 0, 9/10, 100000000, true, 100⟩ rfl
